import Mathlib

/-!
Verification of the on-demand image transformation and cache subsystem of
the sudo-cdn repository, shallowly embedded from src/storage.js (the file
bundles the metadata store helpers, the configuration module and the
express server with the upload, serve and delete handlers).

File contents are modelled as lists of bytes, directories as association
lists from file name to content, and the metadata JSON file as an optional
in-memory store (absence or unparsable content maps to the empty store,
matching the catch branch of loadMetadata).  The sharp codec is external
to the repository and is passed in as a pure function, as the spec
prescribes.  Each handler also returns the sequence of filesystem and
codec operations it performed, so that claims about ordering and about
the absence of decode or resize work are expressible.
-/

/-- Raw file content: a sequence of byte values. -/
abbrev Bytes := List Nat

/-- Association-list lookup (JS object property read). -/
def lookupA {α : Type} (l : List (String × α)) (k : String) : Option α :=
  (l.find? (fun kv => kv.1 == k)).map Prod.snd

/-- Association-list key removal (JS delete / fs.unlink). -/
def eraseA {α : Type} (l : List (String × α)) (k : String) : List (String × α) :=
  l.filter (fun kv => kv.1 != k)

/-- Association-list insert-or-replace (JS property assignment / file write). -/
def insertA {α : Type} (l : List (String × α)) (k : String) (v : α) : List (String × α) :=
  (k, v) :: eraseA l k

/-- One entry of metadataStore.images, as built by the upload handler
(src/storage.js lines 452-462). -/
structure ImageRecord where
  id : String
  originalName : String
  mimeType : String
  size : Nat
  width : Nat
  height : Nat
  format : String
  uploadedAt : String
  extension : String
deriving DecidableEq, Repr

/-- The metadata store: the parsed content of storage/metadata.json. -/
structure Metadata where
  images : List (String × ImageRecord)
deriving DecidableEq, Repr

/-- The two on-disk blob populations (config.originalsPath and
config.cachePath), keyed by file name within the directory. -/
structure Fs where
  originals : List (String × Bytes)
  cache : List (String × Bytes)
deriving DecidableEq, Repr

/-- Configured storage root (config.storagePath). -/
def storagePath : String := "./storage"

/-- Configured cache directory (config.cachePath). -/
def cacheDir : String := "./storage/cache"

/-- Configured originals directory (config.originalsPath). -/
def originalsDir : String := "./storage/originals"

/-- Configured cache lifetime in seconds (config.cacheMaxAge). -/
def cacheMaxAge : Nat := 31536000

/-- The Cache-Control header value set by serveImage (lines 525, 537, 553). -/
def cacheControlValue : String := "public, max-age=" ++ toString cacheMaxAge

/-- Responses sent by the handlers: a body with content type and cache
directive, a JSON success message, or a JSON error payload whose optional
message field mirrors the `message: error.message` pattern of the code. -/
inductive Resp where
  | ok (body : Bytes) (contentType : String) (cacheControl : String)
  | jsonOk (message : String)
  | uploadOk (record : ImageRecord)
  | err (status : Nat) (error : String) (message : Option String)
deriving DecidableEq, Repr

/-- The 404 payload for an identity absent from the metadata index
(src/storage.js line 510). -/
def notFoundResp : Resp := Resp.err 404 "Image not found" none

/-- The 404 payload for a missing original file (src/storage.js line 520). -/
def fileNotFoundResp : Resp := Resp.err 404 "Image file not found" none

/-- Message of a Node filesystem error on a missing path; Node embeds the
target path in the message, which serveImage then forwards in its 500
payload via `message: error.message`. -/
def fsErrMsg (p : String) : String :=
  "ENOENT: no such file or directory, open " ++ p

/-- Operations performed by serveImage, in order. -/
inductive Op where
  | loadMeta
  | accessOriginal (name : String)
  | accessCache (name : String)
  | sendOriginal (name : String)
  | sendCache (name : String)
  | resizeWork (name : String) (w h : Nat)
  | writeCache (name : String)
deriving DecidableEq, Repr

/-- Whether an operation is decode or resize work. -/
def Op.isResizeWork : Op → Bool
  | Op.resizeWork _ _ _ => true
  | _ => false

/-- loadMetadata (src/storage.js lines 21-29): parse the metadata file,
returning the empty store when the file is missing or invalid. -/
def loadMetadata (metaFile : Option Metadata) : Metadata :=
  metaFile.getD { images := [] }

/-- saveMetadata (src/storage.js lines 31-34): serialize the whole store
into the metadata file. -/
def saveMetadata (m : Metadata) : Option Metadata :=
  some m

/-- Cache file name for a variant, `imageId_WxH.webp`
(src/storage.js lines 531-532). -/
def variantName (imageId : String) (w h : Nat) : String :=
  imageId ++ "_" ++ toString w ++ "x" ++ toString h ++ ".webp"

/-- JS falsiness of the width and height arguments at line 524:
null (absent) and 0 are falsy. -/
def jsFalsy (o : Option Nat) : Bool :=
  match o with
  | none => true
  | some n => n == 0

/-- serveImage (src/storage.js lines 504-561).  The sharp pipeline of
lines 542-548 (decode, resize fit-inside without enlargement, re-encode
to webp) is the external pure function resizeEncode; wfail says which
cache writes fail with a filesystem error (line 551). -/
def serveImage (resizeEncode : Bytes → Nat → Nat → Bytes) (wfail : String → Bool)
    (metaFile : Option Metadata) (fs : Fs) (imageId : String)
    (width height : Option Nat) : Resp × Fs × List Op :=
  let metadataStore := loadMetadata metaFile
  match lookupA metadataStore.images imageId with
  | none => (notFoundResp, fs, [Op.loadMeta])
  | some imageMeta =>
    let origName := imageId ++ imageMeta.extension
    match lookupA fs.originals origName with
    | none => (fileNotFoundResp, fs, [Op.loadMeta, Op.accessOriginal origName])
    | some origBytes =>
      if jsFalsy width || jsFalsy height then
        (Resp.ok origBytes imageMeta.mimeType cacheControlValue, fs,
          [Op.loadMeta, Op.accessOriginal origName, Op.sendOriginal origName])
      else
        let w := width.getD 0
        let h := height.getD 0
        let cacheName := variantName imageId w h
        match lookupA fs.cache cacheName with
        | some body =>
          (Resp.ok body "image/webp" cacheControlValue, fs,
            [Op.loadMeta, Op.accessOriginal origName, Op.accessCache cacheName,
              Op.sendCache cacheName])
        | none =>
          let buf := resizeEncode origBytes w h
          if wfail cacheName then
            (Resp.err 500 "Failed to serve image" (some (fsErrMsg (cacheDir ++ "/" ++ cacheName))),
              fs,
              [Op.loadMeta, Op.accessOriginal origName, Op.accessCache cacheName,
                Op.resizeWork origName w h, Op.writeCache cacheName])
          else
            (Resp.ok buf "image/webp" cacheControlValue,
              { fs with cache := insertA fs.cache cacheName buf },
              [Op.loadMeta, Op.accessOriginal origName, Op.accessCache cacheName,
                Op.resizeWork origName w h, Op.writeCache cacheName])

/-- Suffix of a character list from its last dot: the accumulator holds
the candidate found so far. -/
def extnameChars : List Char → List Char → List Char
  | [], best => best
  | c :: rest, best =>
    if c = '.' then extnameChars rest ('.' :: rest) else extnameChars rest best

/-- Extension of a file name, after Node path.extname: the suffix from the
last dot, empty when there is no dot (src/storage.js line 440). -/
def extname (name : String) : String :=
  String.mk (extnameChars name.data [])

/-- Intrinsic properties reported by decoding the stored bytes
(sharp metadata, src/storage.js lines 447-448). -/
structure DecodedMeta where
  width : Nat
  height : Nat
  format : String
deriving DecidableEq, Repr

/-- The multer-parsed upload (req.file): the temporary file name multer
already wrote into the originals directory, plus the declared name, the
declared content type and the reported size. -/
structure UploadFile where
  tmpName : String
  originalname : String
  mimetype : String
  size : Nat
deriving DecidableEq, Repr

/-- Upload handler (src/storage.js lines 432-486).  decodeMeta is the
external sharp metadata call; an error carries the thrown message.  newId
is the identifier produced by generateImageId and now the upload
timestamp.  The temporary file is renamed to `newId ++ extension` before
the decode step; on decode failure the catch branch at lines 474-485
answers 500 without touching the renamed blob or the metadata store. -/
def uploadHandler (decodeMeta : Bytes → Except String DecodedMeta)
    (newId : String) (now : String) (metaFile : Option Metadata) (fs : Fs)
    (file : Option UploadFile) : Resp × Option Metadata × Fs :=
  match file with
  | none => (Resp.err 400 "No image file provided" none, metaFile, fs)
  | some f =>
    let bytes := (lookupA fs.originals f.tmpName).getD []
    let originalExt := extname f.originalname
    let newName := newId ++ originalExt
    let fs1 : Fs := { fs with originals := insertA (eraseA fs.originals f.tmpName) newName bytes }
    match decodeMeta bytes with
    | Except.error msg =>
      (Resp.err 500 "Failed to upload image" (some msg), metaFile, fs1)
    | Except.ok dm =>
      let metadataStore := loadMetadata metaFile
      let record : ImageRecord :=
        { id := newId, originalName := f.originalname, mimeType := f.mimetype,
          size := f.size, width := dm.width, height := dm.height,
          format := dm.format, uploadedAt := now, extension := originalExt }
      let meta1 : Metadata := { images := insertA metadataStore.images newId record }
      (Resp.uploadOk record, saveMetadata meta1, fs1)

/-- Operations performed by the delete handler, in order; the failed flag
records that the unlink raised and was only warned about. -/
inductive DOp where
  | loadMeta
  | unlinkOriginal (name : String) (failed : Bool)
  | readCacheDir
  | unlinkCache (name : String) (failed : Bool)
  | saveMeta
deriving DecidableEq, Repr

/-- Delete handler (src/storage.js lines 606-647).  ufail says which
unlinks raise an OS error; such errors are warned about and skipped, the
file staying in place.  The cache sweep removes every cache file whose
name starts with the image id (line 628); the metadata entry is removed
and saved last (lines 639-640). -/
def deleteImage (ufail : String → Bool) (metaFile : Option Metadata) (fs : Fs)
    (imageId : String) : Resp × Option Metadata × Fs × List DOp :=
  let metadataStore := loadMetadata metaFile
  match lookupA metadataStore.images imageId with
  | none => (notFoundResp, metaFile, fs, [DOp.loadMeta])
  | some imageMeta =>
    let origName := imageId ++ imageMeta.extension
    let fs1 : Fs :=
      if ufail origName then fs else { fs with originals := eraseA fs.originals origName }
    let cacheNames := (fs.cache.map Prod.fst).filter (fun n => n.startsWith imageId)
    let fs2 : Fs :=
      { fs1 with cache := fs1.cache.filter (fun kv => !(kv.1.startsWith imageId) || ufail kv.1) }
    let meta1 : Metadata := { images := eraseA metadataStore.images imageId }
    (Resp.jsonOk "Image deleted", saveMetadata meta1, fs2,
      [DOp.loadMeta, DOp.unlinkOriginal origName (ufail origName), DOp.readCacheDir]
        ++ cacheNames.map (fun n => DOp.unlinkCache n (ufail n))
        ++ [DOp.saveMeta])

/-- Micro-steps of a Node fs.writeFile call: the target is opened with
O_TRUNC and the buffer is then written sequentially, so a concurrent
reader of the same path can observe any intermediate content.  writeAt i
publishes byte i of the buffer at offset i of the visible file. -/
inductive WOp where
  | truncate
  | writeAt (i : Nat)
deriving DecidableEq, Repr

/-- Write one byte at a given offset of a file, zero-filling any gap. -/
def setByte (f : Bytes) (i : Nat) (b : Nat) : Bytes :=
  if i < f.length then f.set i b
  else f ++ List.replicate (i - f.length) 0 ++ [b]

/-- Effect of one micro-step on the visible file at the target path
(none models an absent file). -/
def applyWOp (bytes : Bytes) (file : Option Bytes) : WOp → Option Bytes
  | WOp.truncate => some []
  | WOp.writeAt i => some (setByte (file.getD []) i (bytes.getD i 0))

/-- The micro-step program of `await fs.writeFile(cachePath, resizedBuffer)`
(src/storage.js line 551): truncate, then write each byte in order.  The
code writes directly to the final cache path; there is no temporary file
and no rename step. -/
def writeFileProg (bytes : Bytes) : List WOp :=
  WOp.truncate :: (List.range bytes.length).map WOp.writeAt

/-- Run a sequence of micro-steps over the visible file. -/
def runWOps (bytes : Bytes) (file : Option Bytes) (ops : List WOp) : Option Bytes :=
  ops.foldl (applyWOp bytes) file

/-- Content of the cache path a concurrent reader observes after the
writer has executed its first k micro-steps. -/
def obsAfter (bytes : Bytes) (k : Nat) : Option Bytes :=
  runWOps bytes none ((writeFileProg bytes).take k)

/-- Modelled from the spec: the pixel-dimension computation of the
external resize collaborator (the sharp call with fit inside and
withoutEnlargement at src/storage.js lines 543-546; the arithmetic itself
lives in the codec library, outside this repository).  The spec words:
resize to fit within targetWidth by targetHeight preserving aspect ratio
and never upscaling beyond the intrinsic size, so the scale factor is the
least of the two axis ratios capped at one, and each output dimension is
the rounded scaled intrinsic dimension. -/
def fitInsideDims (W0 H0 w h : Nat) : Int × Int :=
  let s : ℚ := min (min ((w : ℚ) / (W0 : ℚ)) ((h : ℚ) / (H0 : ℚ))) 1
  (round ((W0 : ℚ) * s), round ((H0 : ℚ) * s))

/-- Whether the first character list starts the second one. -/
def isPrefixChars : List Char → List Char → Bool
  | [], _ => true
  | _ :: _, [] => false
  | a :: as, b :: bs => a == b && isPrefixChars as bs

/-- Whether the first character list occurs inside the second one. -/
def hasSubChars (sub : List Char) : List Char → Bool
  | [] => isPrefixChars sub []
  | c :: rest => isPrefixChars sub (c :: rest) || hasSubChars sub rest

/-- Whether a string contains the given fragment. -/
def mentionsStr (fragment s : String) : Bool :=
  hasSubChars fragment.data s.data

/-- Whether a response payload leaks the given path fragment through its
error or message fields. -/
def respLeaks (fragment : String) : Resp → Bool
  | Resp.err _ e m => mentionsStr fragment e || (m.map (mentionsStr fragment)).getD false
  | _ => false

/-- A concrete image record used by the witnesses. -/
def recPng : ImageRecord :=
  { id := "img1", originalName := "a.png", mimeType := "image/png", size := 2,
    width := 20, height := 10, format := "png", uploadedAt := "2024", extension := ".png" }

/-- A concrete metadata file holding one record. -/
def mfOne : Option Metadata := some { images := [("img1", recPng)] }

/-- A blob store with the original present and its 10x10 variant cached. -/
def fsWarm : Fs :=
  { originals := [("img1.png", [1, 2])], cache := [("img1_10x10.webp", [5])] }

/-- A blob store with the original present and an empty cache. -/
def fsCold : Fs := { originals := [("img1.png", [1, 2])], cache := [] }

/-- A blob store holding only a freshly written multer temporary file. -/
def fsTmp : Fs := { originals := [("tmpupload1", [9, 9, 9])], cache := [] }

/-- A blob store for the deletion witness: the original plus one matching
and one unrelated cache entry. -/
def fsDel : Fs :=
  { originals := [("img1.png", [1, 2])],
    cache := [("img1_10x10.webp", [5]), ("other_5x5.webp", [6])] }

/-- A concrete stand-in for the external resize-and-encode function. -/
def reToy : Bytes → Nat → Nat → Bytes := fun _ w h => [w, h]

/-- No write or unlink failures. -/
def wfNone : String → Bool := fun _ => false

/-- Every write fails with a filesystem error. -/
def wfAll : String → Bool := fun _ => true

/-- A decoder that always rejects its input, as sharp does on bytes that
are not a valid image. -/
def decFail : Bytes → Except String DecodedMeta :=
  fun _ => Except.error "Input buffer contains unsupported image format"

/-- A decoder that accepts its input and reports a 20 by 10 png. -/
def decOk : Bytes → Except String DecodedMeta :=
  fun _ => Except.ok { width := 20, height := 10, format := "png" }

/-- A concrete multer upload whose temporary file is in fsTmp. -/
def upFileA : UploadFile :=
  { tmpName := "tmpupload1", originalname := "a.jpg", mimetype := "image/jpeg", size := 3 }

theorem lookupA_cons {α : Type} (kv : String × α) (t : List (String × α)) (j : String) :
    lookupA (kv :: t) j = if kv.1 = j then some kv.2 else lookupA t j := by
  by_cases h : kv.1 = j
  · simp [lookupA, List.find?_cons, h]
  · have hb : (kv.1 == j) = false := beq_eq_false_iff_ne.mpr h
    simp [lookupA, List.find?_cons, hb, h]

theorem eraseA_cons {α : Type} (kv : String × α) (t : List (String × α)) (k : String) :
    eraseA (kv :: t) k = if kv.1 = k then eraseA t k else kv :: eraseA t k := by
  by_cases h : kv.1 = k <;> simp [eraseA, List.filter_cons, h]

theorem lookupA_eraseA_self {α : Type} (l : List (String × α)) (k : String) :
    lookupA (eraseA l k) k = none := by
  induction l with
  | nil => rfl
  | cons kv t ih =>
    rw [eraseA_cons]
    by_cases h : kv.1 = k
    · simp [h, ih]
    · rw [if_neg h, lookupA_cons, if_neg h, ih]

theorem lookupA_eraseA_ne {α : Type} (l : List (String × α)) {k j : String} (h : j ≠ k) :
    lookupA (eraseA l k) j = lookupA l j := by
  induction l with
  | nil => rfl
  | cons kv t ih =>
    rw [eraseA_cons, lookupA_cons]
    by_cases hk : kv.1 = k
    · rw [if_pos hk, ih, if_neg (by rw [hk]; exact fun e => h e.symm)]
    · rw [if_neg hk, lookupA_cons, ih]

theorem lookupA_insertA_self {α : Type} (l : List (String × α)) (k : String) (v : α) :
    lookupA (insertA l k v) k = some v := by
  rw [insertA, lookupA_cons, if_pos rfl]

theorem lookupA_insertA_ne {α : Type} (l : List (String × α)) {k j : String} (v : α)
    (h : j ≠ k) : lookupA (insertA l k v) j = lookupA l j := by
  rw [insertA, lookupA_cons, if_neg (fun e => h e.symm), lookupA_eraseA_ne l h]

theorem runWOps_range (bytes : Bytes) :
    ∀ n, n ≤ bytes.length →
      runWOps bytes (some []) ((List.range n).map WOp.writeAt) = some (bytes.take n) := by
  intro n
  induction n with
  | zero => intro _; simp [runWOps]
  | succ n ih =>
    intro hn
    have hn' : n ≤ bytes.length := Nat.le_of_succ_le hn
    have hlt : n < bytes.length := hn
    have ih' := ih hn'
    simp only [runWOps] at ih' ⊢
    rw [List.range_succ, List.map_append, List.foldl_append, ih']
    simp only [List.map_cons, List.map_nil, List.foldl_cons, List.foldl_nil, applyWOp,
      Option.getD_some]
    have hlen : (bytes.take n).length = n := by
      rw [List.length_take]; exact min_eq_left hn'
    rw [setByte, if_neg (by rw [hlen]; exact lt_irrefl n), hlen, Nat.sub_self]
    have hx : bytes[n]? = some bytes[n] := List.getElem?_eq_getElem hlt
    rw [List.getD_eq_getElem bytes 0 hlt, List.take_succ, hx]
    simp

theorem runWOps_writeFileProg (bytes : Bytes) (f0 : Option Bytes) :
    runWOps bytes f0 (writeFileProg bytes) = some bytes := by
  rw [writeFileProg]
  simp only [runWOps, List.foldl_cons, applyWOp]
  have h := runWOps_range bytes bytes.length (le_refl _)
  rw [List.take_length] at h
  simpa [runWOps] using h

theorem round_le_of_le {x : ℚ} {n : Nat} (h : x ≤ (n : ℚ)) : round x ≤ (n : Int) := by
  rw [round_eq]
  have h2 : x + 1/2 ≤ (n : ℚ) + 1/2 := by linarith
  have h3 := Int.floor_mono h2
  have h4 : ((n : Int) : ℚ) + (1/2 : ℚ) = ((n : ℚ) + 1/2) := by push_cast; ring
  have h5 : ⌊((n : Int) : ℚ) + (1/2 : ℚ)⌋ = (n : Int) + ⌊(1/2 : ℚ)⌋ := Int.floor_int_add _ _
  have h6 : ⌊(1/2 : ℚ)⌋ = 0 := by norm_num [Int.floor_eq_zero_iff]
  rw [h4, h6, add_zero] at h5
  rw [h5] at h3
  exact h3

/-- Claim C1: for an identity present in the metadata index whose original
blob exists, and in-bounds dimensions, a cached variant is read and
returned as is with content type image/webp and the long-lived cache
directive, with no decode or resize work and no state change; and two
consecutive resolve calls for the same triple return byte-identical
output, the second taking the cache-hit fast path. -/
theorem c1_cache_hit_idempotent (resizeEncode : Bytes → Nat → Nat → Bytes)
    (wfail : String → Bool) (metaFile : Option Metadata) (fs : Fs) (imageId : String)
    (imageMeta : ImageRecord) (w h : Nat)
    (h1 : lookupA (loadMetadata metaFile).images imageId = some imageMeta)
    (h2 : (lookupA fs.originals (imageId ++ imageMeta.extension)).isSome = true)
    (hw : 0 < w) (hw5 : w ≤ 5000) (hh : 0 < h) (hh5 : h ≤ 5000)
    (hwf : wfail (variantName imageId w h) = false) :
    (∀ body, lookupA fs.cache (variantName imageId w h) = some body →
      serveImage resizeEncode wfail metaFile fs imageId (some w) (some h)
        = (Resp.ok body "image/webp" cacheControlValue, fs,
            [Op.loadMeta, Op.accessOriginal (imageId ++ imageMeta.extension),
              Op.accessCache (variantName imageId w h), Op.sendCache (variantName imageId w h)]))
    ∧ (∃ body,
        (serveImage resizeEncode wfail metaFile fs imageId (some w) (some h)).1
          = Resp.ok body "image/webp" cacheControlValue
        ∧ (serveImage resizeEncode wfail metaFile
            (serveImage resizeEncode wfail metaFile fs imageId (some w) (some h)).2.1
            imageId (some w) (some h)).1
          = Resp.ok body "image/webp" cacheControlValue
        ∧ (serveImage resizeEncode wfail metaFile
            (serveImage resizeEncode wfail metaFile fs imageId (some w) (some h)).2.1
            imageId (some w) (some h)).2.1
          = (serveImage resizeEncode wfail metaFile fs imageId (some w) (some h)).2.1
        ∧ ((serveImage resizeEncode wfail metaFile
            (serveImage resizeEncode wfail metaFile fs imageId (some w) (some h)).2.1
            imageId (some w) (some h)).2.2.filter Op.isResizeWork) = []) := by
  obtain ⟨origBytes, horig⟩ := Option.isSome_iff_exists.mp h2
  have hfw : jsFalsy (some w) = false := by simp [jsFalsy]; omega
  have hfh : jsFalsy (some h) = false := by simp [jsFalsy]; omega
  constructor
  · intro body hcache
    simp [serveImage, h1, horig, hfw, hfh, hcache]
  · cases hc : lookupA fs.cache (variantName imageId w h) with
    | some body =>
      refine ⟨body, ?_, ?_, ?_, ?_⟩ <;>
        simp [serveImage, h1, horig, hfw, hfh, hc, Op.isResizeWork]
    | none =>
      refine ⟨resizeEncode origBytes w h, ?_, ?_, ?_, ?_⟩ <;>
        simp [serveImage, h1, horig, hfw, hfh, hc, hwf, lookupA_insertA_self, Op.isResizeWork]

/-- Witness for C1 at a concrete warm store. -/
theorem c1_witness :
    (∀ body, lookupA fsWarm.cache (variantName "img1" 10 10) = some body →
      serveImage reToy wfNone mfOne fsWarm "img1" (some 10) (some 10)
        = (Resp.ok body "image/webp" cacheControlValue, fsWarm,
            [Op.loadMeta, Op.accessOriginal ("img1" ++ recPng.extension),
              Op.accessCache (variantName "img1" 10 10), Op.sendCache (variantName "img1" 10 10)]))
    ∧ (∃ body,
        (serveImage reToy wfNone mfOne fsWarm "img1" (some 10) (some 10)).1
          = Resp.ok body "image/webp" cacheControlValue
        ∧ (serveImage reToy wfNone mfOne
            (serveImage reToy wfNone mfOne fsWarm "img1" (some 10) (some 10)).2.1
            "img1" (some 10) (some 10)).1
          = Resp.ok body "image/webp" cacheControlValue
        ∧ (serveImage reToy wfNone mfOne
            (serveImage reToy wfNone mfOne fsWarm "img1" (some 10) (some 10)).2.1
            "img1" (some 10) (some 10)).2.1
          = (serveImage reToy wfNone mfOne fsWarm "img1" (some 10) (some 10)).2.1
        ∧ ((serveImage reToy wfNone mfOne
            (serveImage reToy wfNone mfOne fsWarm "img1" (some 10) (some 10)).2.1
            "img1" (some 10) (some 10)).2.2.filter Op.isResizeWork) = []) :=
  c1_cache_hit_idempotent reToy wfNone mfOne fsWarm "img1" recPng 10 10
    (by decide) (by decide) (by decide) (by decide) (by decide) (by decide) (by decide)

/-- Claim C2, counterexample: the variant write of serveImage is a direct
fs.writeFile of the buffer to the final cache path, not an atomic
publish; after the first two micro-steps of writing the two-byte buffer
the path holds a one-byte file, which is neither absent, nor empty, nor
the complete variant, so a concurrent reader can observe a partial
file. -/
theorem c2_counterexample :
    obsAfter [7, 8] 2 = some [7]
    ∧ ¬ (∀ k, obsAfter [7, 8] k = none ∨ obsAfter [7, 8] k = some []
          ∨ obsAfter [7, 8] k = some [7, 8]) := by
  constructor
  · decide
  · intro hall
    have h2 := hall 2
    revert h2
    decide

/-- Claim C2 as amended: the cache write is a single direct write to the
final cache path with no temporary file or rename, so a concurrent reader
may observe a partial file; a generating resolve call still returns its
own complete computed buffer, the cache afterwards maps the variant key to
exactly that buffer, and once the writer has executed all its micro-steps
the visible file holds the complete bytes whatever the starting state. -/
theorem c2_direct_write (resizeEncode : Bytes → Nat → Nat → Bytes)
    (wfail : String → Bool) (metaFile : Option Metadata) (fs : Fs) (imageId : String)
    (imageMeta : ImageRecord) (origBytes : Bytes) (w h : Nat) (f0 : Option Bytes)
    (h1 : lookupA (loadMetadata metaFile).images imageId = some imageMeta)
    (h2 : lookupA fs.originals (imageId ++ imageMeta.extension) = some origBytes)
    (hw : 0 < w) (hh : 0 < h)
    (hc : lookupA fs.cache (variantName imageId w h) = none)
    (hwf : wfail (variantName imageId w h) = false) :
    (serveImage resizeEncode wfail metaFile fs imageId (some w) (some h)).1
      = Resp.ok (resizeEncode origBytes w h) "image/webp" cacheControlValue
    ∧ lookupA (serveImage resizeEncode wfail metaFile fs imageId (some w) (some h)).2.1.cache
        (variantName imageId w h) = some (resizeEncode origBytes w h)
    ∧ runWOps (resizeEncode origBytes w h) f0 (writeFileProg (resizeEncode origBytes w h))
      = some (resizeEncode origBytes w h) := by
  have hfw : jsFalsy (some w) = false := by simp [jsFalsy]; omega
  have hfh : jsFalsy (some h) = false := by simp [jsFalsy]; omega
  refine ⟨?_, ?_, runWOps_writeFileProg _ _⟩ <;>
    simp [serveImage, h1, h2, hfw, hfh, hc, hwf, lookupA_insertA_self]

/-- Witness for the amended C2 at a concrete cold store. -/
theorem c2_witness :
    (serveImage reToy wfNone mfOne fsCold "img1" (some 10) (some 10)).1
      = Resp.ok (reToy [1, 2] 10 10) "image/webp" cacheControlValue
    ∧ lookupA (serveImage reToy wfNone mfOne fsCold "img1" (some 10) (some 10)).2.1.cache
        (variantName "img1" 10 10) = some (reToy [1, 2] 10 10)
    ∧ runWOps (reToy [1, 2] 10 10) none (writeFileProg (reToy [1, 2] 10 10))
      = some (reToy [1, 2] 10 10) :=
  c2_direct_write reToy wfNone mfOne fsCold "img1" recPng [1, 2] 10 10 none
    (by decide) (by decide) (by decide) (by decide) (by decide) (by decide)

/-- Claim C3, counterexample: uploading bytes that fail to decode leaves
the renamed blob in the originals store with no metadata entry, so a
residual orphan blob remains after the failed ingest instead of zero. -/
theorem c3_counterexample :
    lookupA (uploadHandler decFail "img9" "2024" none fsTmp (some upFileA)).2.2.originals
        "img9.jpg" = some [9, 9, 9]
    ∧ lookupA
        (loadMetadata (uploadHandler decFail "img9" "2024" none fsTmp (some upFileA)).2.1).images
        "img9" = none
    ∧ (uploadHandler decFail "img9" "2024" none fsTmp (some upFileA)).1
      = Resp.err 500 "Failed to upload image"
          (some "Input buffer contains unsupported image format") := by
  decide

/-- Claim C3 as amended: when decoding fails after the blob was renamed
into the originals store, the handler surfaces a generic 500 upload
failure carrying the decoder message, the metadata file is untouched (so
no image record exists without a blob), and the orphaned blob stays under
its new name while the temporary name is gone; there is no rollback. -/
theorem c3_no_rollback (decodeMeta : Bytes → Except String DecodedMeta)
    (newId now : String) (metaFile : Option Metadata) (fs : Fs) (f : UploadFile)
    (bytes : Bytes) (msg : String)
    (hb : lookupA fs.originals f.tmpName = some bytes)
    (hd : decodeMeta bytes = Except.error msg)
    (hne : f.tmpName ≠ newId ++ extname f.originalname) :
    (uploadHandler decodeMeta newId now metaFile fs (some f)).1
      = Resp.err 500 "Failed to upload image" (some msg)
    ∧ (uploadHandler decodeMeta newId now metaFile fs (some f)).2.1 = metaFile
    ∧ lookupA (uploadHandler decodeMeta newId now metaFile fs (some f)).2.2.originals
        (newId ++ extname f.originalname) = some bytes
    ∧ lookupA (uploadHandler decodeMeta newId now metaFile fs (some f)).2.2.originals
        f.tmpName = none := by
  refine ⟨?_, ?_, ?_, ?_⟩
  · simp [uploadHandler, hb, hd]
  · simp [uploadHandler, hb, hd]
  · simp [uploadHandler, hb, hd, lookupA_insertA_self]
  · simp only [uploadHandler, hb, Option.getD_some, hd]
    rw [lookupA_insertA_ne _ _ hne, lookupA_eraseA_self]

/-- Witness for the amended C3 at a concrete failing upload. -/
theorem c3_witness :
    lookupA fsTmp.originals upFileA.tmpName = some [9, 9, 9]
    ∧ decFail [9, 9, 9] = Except.error "Input buffer contains unsupported image format"
    ∧ upFileA.tmpName ≠ "img8" ++ extname upFileA.originalname
    ∧ ((uploadHandler decFail "img8" "2024" none fsTmp (some upFileA)).1
        = Resp.err 500 "Failed to upload image"
            (some "Input buffer contains unsupported image format")
      ∧ (uploadHandler decFail "img8" "2024" none fsTmp (some upFileA)).2.1 = none
      ∧ lookupA (uploadHandler decFail "img8" "2024" none fsTmp (some upFileA)).2.2.originals
          ("img8" ++ extname upFileA.originalname) = some [9, 9, 9]
      ∧ lookupA (uploadHandler decFail "img8" "2024" none fsTmp (some upFileA)).2.2.originals
          upFileA.tmpName = none) :=
  ⟨by decide, rfl, by decide,
    c3_no_rollback decFail "img8" "2024" none fsTmp upFileA [9, 9, 9] _
      (by decide) rfl (by decide)⟩

/-- Claim C5: for an identity absent from the metadata index, serveImage
answers the fixed 404 unknown-image payload for any dimensions, its only
operation is the metadata load (no blob store or variant work), and that
payload differs from the missing-original-file 404 payload. -/
theorem c5_unknown_identity (resizeEncode : Bytes → Nat → Nat → Bytes)
    (wfail : String → Bool) (metaFile : Option Metadata) (fs : Fs) (imageId : String)
    (width height : Option Nat)
    (h : lookupA (loadMetadata metaFile).images imageId = none) :
    serveImage resizeEncode wfail metaFile fs imageId width height
      = (notFoundResp, fs, [Op.loadMeta]) ∧ notFoundResp ≠ fileNotFoundResp := by
  constructor
  · simp [serveImage, h]
  · decide

/-- Witness for C5 at a concrete empty store. -/
theorem c5_witness :
    serveImage (fun _ _ _ => []) (fun _ => false) none { originals := [], cache := [] }
        "nope" (some 10) (some 10)
      = (notFoundResp, { originals := [], cache := [] }, [Op.loadMeta])
      ∧ notFoundResp ≠ fileNotFoundResp :=
  c5_unknown_identity _ _ _ _ _ _ _ (by decide)

/-- Claim C10: for an identity present in the metadata index whose
original file is missing, serveImage answers the missing-file 404 for any
dimensions without ever consulting the variant cache, even when a cached
variant for the requested dimensions exists. -/
theorem c10_stale_variant_not_served (resizeEncode : Bytes → Nat → Nat → Bytes)
    (wfail : String → Bool) (metaFile : Option Metadata) (fs : Fs) (imageId : String)
    (imageMeta : ImageRecord) (width height : Option Nat) (body : Bytes)
    (h1 : lookupA (loadMetadata metaFile).images imageId = some imageMeta)
    (h2 : lookupA fs.originals (imageId ++ imageMeta.extension) = none)
    (h3 : lookupA fs.cache (variantName imageId (width.getD 0) (height.getD 0)) = some body) :
    serveImage resizeEncode wfail metaFile fs imageId width height
      = (fileNotFoundResp, fs,
          [Op.loadMeta, Op.accessOriginal (imageId ++ imageMeta.extension)]) := by
  simp [serveImage, h1, h2]

/-- Witness for C10 at a concrete store with a stale cached variant. -/
theorem c10_witness :
    serveImage (fun _ _ _ => []) (fun _ => false)
        (some { images := [("img1", recPng)] })
        { originals := [], cache := [("img1_10x10.webp", [9])] }
        "img1" (some 10) (some 10)
      = (fileNotFoundResp, { originals := [], cache := [("img1_10x10.webp", [9])] },
          [Op.loadMeta, Op.accessOriginal "img1.png"]) :=
  c10_stale_variant_not_served _ _ _ _ _ recPng _ _ [9] (by decide) (by decide) (by decide)

/-- Claim C4: deleting an identity present in the metadata index answers
success, performs the original unlink and then the unlink of every cache
file whose name starts with the identity before the metadata save, which
is the last operation; the index entry is removed whatever per-file
unlink errors occur; when no unlink fails, neither the original nor any
identity-prefixed cache entry survives; and a subsequent serveImage on
the identity answers the unknown-image 404. -/
theorem c4_delete_order (ufail : String → Bool) (metaFile : Option Metadata) (fs : Fs)
    (imageId : String) (imageMeta : ImageRecord)
    (resizeEncode : Bytes → Nat → Nat → Bytes) (wfail : String → Bool)
    (width height : Option Nat)
    (h1 : lookupA (loadMetadata metaFile).images imageId = some imageMeta) :
    (deleteImage ufail metaFile fs imageId).1 = Resp.jsonOk "Image deleted"
    ∧ (deleteImage ufail metaFile fs imageId).2.2.2
      = [DOp.loadMeta,
          DOp.unlinkOriginal (imageId ++ imageMeta.extension)
            (ufail (imageId ++ imageMeta.extension)),
          DOp.readCacheDir]
        ++ ((fs.cache.map Prod.fst).filter (fun n => n.startsWith imageId)).map
            (fun n => DOp.unlinkCache n (ufail n))
        ++ [DOp.saveMeta]
    ∧ (deleteImage ufail metaFile fs imageId).2.2.2.getLast? = some DOp.saveMeta
    ∧ lookupA (loadMetadata (deleteImage ufail metaFile fs imageId).2.1).images imageId = none
    ∧ ((∀ p, ufail p = false) →
        lookupA (deleteImage ufail metaFile fs imageId).2.2.1.originals
          (imageId ++ imageMeta.extension) = none
        ∧ ∀ kv ∈ (deleteImage ufail metaFile fs imageId).2.2.1.cache,
            kv.1.startsWith imageId = false)
    ∧ serveImage resizeEncode wfail (deleteImage ufail metaFile fs imageId).2.1
        (deleteImage ufail metaFile fs imageId).2.2.1 imageId width height
      = (notFoundResp, (deleteImage ufail metaFile fs imageId).2.2.1, [Op.loadMeta]) := by
  have hTrace : (deleteImage ufail metaFile fs imageId).2.2.2
      = [DOp.loadMeta,
          DOp.unlinkOriginal (imageId ++ imageMeta.extension)
            (ufail (imageId ++ imageMeta.extension)),
          DOp.readCacheDir]
        ++ ((fs.cache.map Prod.fst).filter (fun n => n.startsWith imageId)).map
            (fun n => DOp.unlinkCache n (ufail n))
        ++ [DOp.saveMeta] := by
    simp [deleteImage, h1]
  have hremoved :
      lookupA (loadMetadata (deleteImage ufail metaFile fs imageId).2.1).images imageId
        = none := by
    simp only [deleteImage, h1]
    simp [loadMetadata, saveMetadata, lookupA_eraseA_self]
  refine ⟨?_, hTrace, ?_, hremoved, ?_, ?_⟩
  · simp [deleteImage, h1]
  · rw [hTrace, List.append_assoc]
    rw [List.getLast?_append_of_ne_nil _ (by simp)]
    rw [List.getLast?_append_of_ne_nil _ (by simp)]
    rfl
  · intro hall
    constructor
    · simp [deleteImage, h1, hall, lookupA_eraseA_self]
    · intro kv hkv
      simp only [deleteImage, h1] at hkv
      simp only [hall] at hkv
      have := List.mem_filter.mp hkv
      simpa using this.2
  · simp [serveImage, hremoved]

/-- Witness for C4 at a concrete store with one matching and one
unrelated cache entry. -/
theorem c4_witness :
    (deleteImage wfNone mfOne fsDel "img1").1 = Resp.jsonOk "Image deleted"
    ∧ (deleteImage wfNone mfOne fsDel "img1").2.2.2
      = [DOp.loadMeta,
          DOp.unlinkOriginal ("img1" ++ recPng.extension) (wfNone ("img1" ++ recPng.extension)),
          DOp.readCacheDir]
        ++ ((fsDel.cache.map Prod.fst).filter (fun n => n.startsWith "img1")).map
            (fun n => DOp.unlinkCache n (wfNone n))
        ++ [DOp.saveMeta]
    ∧ (deleteImage wfNone mfOne fsDel "img1").2.2.2.getLast? = some DOp.saveMeta
    ∧ lookupA (loadMetadata (deleteImage wfNone mfOne fsDel "img1").2.1).images "img1" = none
    ∧ ((∀ p, wfNone p = false) →
        lookupA (deleteImage wfNone mfOne fsDel "img1").2.2.1.originals
          ("img1" ++ recPng.extension) = none
        ∧ ∀ kv ∈ (deleteImage wfNone mfOne fsDel "img1").2.2.1.cache,
            kv.1.startsWith "img1" = false)
    ∧ serveImage reToy wfNone (deleteImage wfNone mfOne fsDel "img1").2.1
        (deleteImage wfNone mfOne fsDel "img1").2.2.1 "img1" (some 10) (some 10)
      = (notFoundResp, (deleteImage wfNone mfOne fsDel "img1").2.2.1, [Op.loadMeta]) :=
  c4_delete_order wfNone mfOne fsDel "img1" recPng reToy wfNone (some 10) (some 10) (by decide)

/-- Claim C6: for any intrinsic size and any in-bounds requested
dimensions, the fit-inside computation yields a width at most the
requested width, a height at most the requested height, neither dimension
above the intrinsic one, and an aspect difference bounded by the rounding
slack of half a unit per axis. -/
theorem c6_fit_inside_law (W0 H0 w h : Nat) (hW : 0 < W0) (hH : 0 < H0)
    (hw : 0 < w) (hh : 0 < h) (hw5 : w ≤ 5000) (hh5 : h ≤ 5000) :
    (fitInsideDims W0 H0 w h).1 ≤ (w : Int) ∧ (fitInsideDims W0 H0 w h).2 ≤ (h : Int) ∧
    (fitInsideDims W0 H0 w h).1 ≤ (W0 : Int) ∧ (fitInsideDims W0 H0 w h).2 ≤ (H0 : Int) ∧
    |(((fitInsideDims W0 H0 w h).1 : ℚ) * H0 - ((fitInsideDims W0 H0 w h).2 : ℚ) * W0)|
      ≤ ((W0 : ℚ) + H0) / 2 := by
  have hW' : (0:ℚ) < W0 := by exact_mod_cast hW
  have hH' : (0:ℚ) < H0 := by exact_mod_cast hH
  set s : ℚ := min (min ((w : ℚ) / (W0 : ℚ)) ((h : ℚ) / (H0 : ℚ))) 1 with hs
  have e1 : (fitInsideDims W0 H0 w h).1 = round ((W0:ℚ) * s) := rfl
  have e2 : (fitInsideDims W0 H0 w h).2 = round ((H0:ℚ) * s) := rfl
  have hsw : s ≤ (w:ℚ)/(W0:ℚ) := le_trans (min_le_left _ _) (min_le_left _ _)
  have hsh : s ≤ (h:ℚ)/(H0:ℚ) := le_trans (min_le_left _ _) (min_le_right _ _)
  have hs1 : s ≤ 1 := min_le_right _ _
  have hcw : (W0:ℚ) * ((w:ℚ)/(W0:ℚ)) = (w:ℚ) := by
    rw [mul_comm, div_mul_cancel₀ _ (ne_of_gt hW')]
  have hch : (H0:ℚ) * ((h:ℚ)/(H0:ℚ)) = (h:ℚ) := by
    rw [mul_comm, div_mul_cancel₀ _ (ne_of_gt hH')]
  have hWs_w : (W0:ℚ) * s ≤ (w:ℚ) := by
    calc (W0:ℚ) * s ≤ (W0:ℚ) * ((w:ℚ)/(W0:ℚ)) :=
          mul_le_mul_of_nonneg_left hsw (le_of_lt hW')
    _ = (w:ℚ) := hcw
  have hHs_h : (H0:ℚ) * s ≤ (h:ℚ) := by
    calc (H0:ℚ) * s ≤ (H0:ℚ) * ((h:ℚ)/(H0:ℚ)) :=
          mul_le_mul_of_nonneg_left hsh (le_of_lt hH')
    _ = (h:ℚ) := hch
  have hWs_W : (W0:ℚ) * s ≤ (W0:ℚ) := by nlinarith
  have hHs_H : (H0:ℚ) * s ≤ (H0:ℚ) := by nlinarith
  refine ⟨?_, ?_, ?_, ?_, ?_⟩
  · rw [e1]; exact round_le_of_le hWs_w
  · rw [e2]; exact round_le_of_le hHs_h
  · rw [e1]; exact round_le_of_le hWs_W
  · rw [e2]; exact round_le_of_le hHs_H
  · rw [e1, e2]
    set cw : ℚ := ((round ((W0:ℚ)*s) : ℤ) : ℚ) with hcw2
    set ch : ℚ := ((round ((H0:ℚ)*s) : ℤ) : ℚ) with hch2
    have h1 : |cw - (W0:ℚ)*s| ≤ 1/2 := by
      rw [hcw2, abs_sub_comm]; exact abs_sub_round _
    have h2 : |ch - (H0:ℚ)*s| ≤ 1/2 := by
      rw [hch2, abs_sub_comm]; exact abs_sub_round _
    have ha := abs_le.mp h1
    have hb := abs_le.mp h2
    have p1 : (cw - (W0:ℚ)*s) * H0 ≤ (1/2) * H0 := mul_le_mul_of_nonneg_right ha.2 hH'.le
    have p2 : (-(1/2) : ℚ) * H0 ≤ (cw - (W0:ℚ)*s) * H0 := mul_le_mul_of_nonneg_right ha.1 hH'.le
    have p3 : (ch - (H0:ℚ)*s) * W0 ≤ (1/2) * W0 := mul_le_mul_of_nonneg_right hb.2 hW'.le
    have p4 : (-(1/2) : ℚ) * W0 ≤ (ch - (H0:ℚ)*s) * W0 := mul_le_mul_of_nonneg_right hb.1 hW'.le
    have key : cw * (H0:ℚ) - ch * (W0:ℚ) = (cw - (W0:ℚ)*s)*H0 - (ch - (H0:ℚ)*s)*W0 := by ring
    rw [abs_le, key]
    constructor <;> linarith

/-- Witness for C6 at the 2000 by 1000 original requested at 100 by 100,
which yields the 100 by 50 variant of the spec scenario. -/
theorem c6_witness :
    fitInsideDims 2000 1000 100 100 = (100, 50)
    ∧ ((fitInsideDims 2000 1000 100 100).1 ≤ (100 : Int)
      ∧ (fitInsideDims 2000 1000 100 100).2 ≤ (100 : Int)
      ∧ (fitInsideDims 2000 1000 100 100).1 ≤ (2000 : Int)
      ∧ (fitInsideDims 2000 1000 100 100).2 ≤ (1000 : Int)
      ∧ |(((fitInsideDims 2000 1000 100 100).1 : ℚ) * 1000
          - ((fitInsideDims 2000 1000 100 100).2 : ℚ) * 2000)|
        ≤ ((2000 : ℚ) + 1000) / 2) := by
  constructor
  · unfold fitInsideDims
    norm_num [round_eq]
  · have := c6_fit_inside_law 2000 1000 100 100 (by norm_num) (by norm_num)
      (by norm_num) (by norm_num) (by norm_num) (by norm_num)
    exact_mod_cast this

/-- Claim C7: a successful ingest renames the uploaded bytes into the
originals store and records the declared media type, and a subsequent
read of that identity with no dimensions skips all variant logic and
returns exactly the uploaded bytes with the stored media type and the
long-lived cache directive. -/
theorem c7_round_trip (decodeMeta : Bytes → Except String DecodedMeta)
    (resizeEncode : Bytes → Nat → Nat → Bytes) (wfail : String → Bool)
    (newId now : String) (metaFile : Option Metadata) (fs : Fs) (f : UploadFile)
    (bytes : Bytes) (dm : DecodedMeta)
    (hb : lookupA fs.originals f.tmpName = some bytes)
    (hd : decodeMeta bytes = Except.ok dm) :
    (uploadHandler decodeMeta newId now metaFile fs (some f)).1
      = Resp.uploadOk
          { id := newId, originalName := f.originalname, mimeType := f.mimetype,
            size := f.size, width := dm.width, height := dm.height, format := dm.format,
            uploadedAt := now, extension := extname f.originalname }
    ∧ serveImage resizeEncode wfail
        (uploadHandler decodeMeta newId now metaFile fs (some f)).2.1
        (uploadHandler decodeMeta newId now metaFile fs (some f)).2.2 newId none none
      = (Resp.ok bytes f.mimetype cacheControlValue,
          (uploadHandler decodeMeta newId now metaFile fs (some f)).2.2,
          [Op.loadMeta, Op.accessOriginal (newId ++ extname f.originalname),
            Op.sendOriginal (newId ++ extname f.originalname)]) := by
  constructor
  · simp [uploadHandler, hb, hd]
  · simp [uploadHandler, hb, hd, serveImage, loadMetadata, saveMetadata,
      lookupA_insertA_self, jsFalsy]

/-- Witness for C7 at a concrete successful upload. -/
theorem c7_witness :
    (uploadHandler decOk "img7" "2024" none fsTmp (some upFileA)).1
      = Resp.uploadOk
          { id := "img7", originalName := upFileA.originalname,
            mimeType := upFileA.mimetype, size := upFileA.size, width := 20, height := 10,
            format := "png", uploadedAt := "2024", extension := extname upFileA.originalname }
    ∧ serveImage reToy wfNone
        (uploadHandler decOk "img7" "2024" none fsTmp (some upFileA)).2.1
        (uploadHandler decOk "img7" "2024" none fsTmp (some upFileA)).2.2 "img7" none none
      = (Resp.ok [9, 9, 9] upFileA.mimetype cacheControlValue,
          (uploadHandler decOk "img7" "2024" none fsTmp (some upFileA)).2.2,
          [Op.loadMeta, Op.accessOriginal ("img7" ++ extname upFileA.originalname),
            Op.sendOriginal ("img7" ++ extname upFileA.originalname)]) :=
  c7_round_trip decOk reToy wfNone "img7" "2024" none fsTmp upFileA [9, 9, 9]
    { width := 20, height := 10, format := "png" } (by decide) rfl

/-- Claim C8: writing the metadata store with one record inserted and
then reading it back observes exactly the committed record under its
identity while every other identity reads as before the write. -/
theorem c8_read_after_write (metaFile : Option Metadata) (imageId : String)
    (record : ImageRecord) (j : String) (hj : j ≠ imageId) :
    lookupA (loadMetadata (saveMetadata
        { images := insertA (loadMetadata metaFile).images imageId record })).images imageId
      = some record
    ∧ lookupA (loadMetadata (saveMetadata
        { images := insertA (loadMetadata metaFile).images imageId record })).images j
      = lookupA (loadMetadata metaFile).images j := by
  constructor
  · simp [loadMetadata, saveMetadata, lookupA_insertA_self]
  · simp only [loadMetadata, saveMetadata, Option.getD_some]
    exact lookupA_insertA_ne _ _ hj

/-- Witness for C8 at a concrete store holding an unrelated record. -/
theorem c8_witness :
    lookupA (loadMetadata (saveMetadata
        { images := insertA (loadMetadata mfOne).images "img2" recPng })).images "img2"
      = some recPng
    ∧ lookupA (loadMetadata (saveMetadata
        { images := insertA (loadMetadata mfOne).images "img2" recPng })).images "img1"
      = lookupA (loadMetadata mfOne).images "img1" :=
  c8_read_after_write mfOne "img2" recPng "img1" (by decide)

/-- Claim C9, counterexample: when the cache write raises a filesystem
error, serveImage answers a 500 payload whose message field is the raw
Node error message, which contains the storage path of the cache file, so
internal filesystem paths do reach the response payload. -/
theorem c9_counterexample :
    (serveImage reToy wfAll mfOne fsCold "img1" (some 10) (some 10)).1
      = Resp.err 500 "Failed to serve image"
          (some (fsErrMsg (cacheDir ++ "/" ++ variantName "img1" 10 10)))
    ∧ respLeaks storagePath
        (serveImage reToy wfAll mfOne fsCold "img1" (some 10) (some 10)).1 = true := by
  decide

/-- Claim C9 as amended: every serveImage response is either a success
carrying the long-lived cache directive, one of the two fixed 404
payloads, or a 500 payload with the fixed error string and a message
field carrying the underlying error text, which may contain filesystem
paths; the two 404 kinds are distinct and leak no storage path. -/
theorem c9_error_shapes (resizeEncode : Bytes → Nat → Nat → Bytes)
    (wfail : String → Bool) (metaFile : Option Metadata) (fs : Fs) (imageId : String)
    (width height : Option Nat) :
    ((serveImage resizeEncode wfail metaFile fs imageId width height).1 = notFoundResp
      ∨ (serveImage resizeEncode wfail metaFile fs imageId width height).1 = fileNotFoundResp
      ∨ (∃ b ct, (serveImage resizeEncode wfail metaFile fs imageId width height).1
          = Resp.ok b ct cacheControlValue)
      ∨ (∃ m, (serveImage resizeEncode wfail metaFile fs imageId width height).1
          = Resp.err 500 "Failed to serve image" (some m)))
    ∧ notFoundResp ≠ fileNotFoundResp
    ∧ respLeaks storagePath notFoundResp = false
    ∧ respLeaks storagePath fileNotFoundResp = false := by
  refine ⟨?_, by decide, by decide, by decide⟩
  cases hm : lookupA (loadMetadata metaFile).images imageId with
  | none => left; simp [serveImage, hm]
  | some imageMeta =>
    cases ho : lookupA fs.originals (imageId ++ imageMeta.extension) with
    | none => right; left; simp [serveImage, hm, ho]
    | some origBytes =>
      by_cases hf : (jsFalsy width || jsFalsy height) = true
      · right; right; left
        exact ⟨origBytes, imageMeta.mimeType, by simp [serveImage, hm, ho, hf]⟩
      · have hf' : (jsFalsy width || jsFalsy height) = false := by
          revert hf; cases (jsFalsy width || jsFalsy height) <;> simp
        cases hc : lookupA fs.cache (variantName imageId (width.getD 0) (height.getD 0)) with
        | some body =>
          right; right; left
          exact ⟨body, "image/webp", by simp [serveImage, hm, ho, hf', hc]⟩
        | none =>
          by_cases hwf : wfail (variantName imageId (width.getD 0) (height.getD 0)) = true
          · right; right; right
            exact ⟨fsErrMsg (cacheDir ++ "/" ++ variantName imageId (width.getD 0) (height.getD 0)),
              by simp [serveImage, hm, ho, hf', hc, hwf]⟩
          · have hwf' : wfail (variantName imageId (width.getD 0) (height.getD 0)) = false := by
              revert hwf
              cases (wfail (variantName imageId (width.getD 0) (height.getD 0))) <;> simp
            right; right; left
            exact ⟨resizeEncode origBytes (width.getD 0) (height.getD 0), "image/webp",
              by simp [serveImage, hm, ho, hf', hc, hwf']⟩
